import Mathlib

/-!
Shallow embedding of the contact-book program (`task.py`): the field wrappers
`Phone` and `Birthday`, the `Record` phone operations, the `AddressBook` with
its `get_upcoming_birthdays` query, and the `input_error` dispatch boundary.
Python dates are modelled by explicit year/month/day structures with proleptic
Gregorian ordinal arithmetic (matching `datetime.date.toordinal`), fallible
Python operations by `Except PyErr`, and mutation by explicit state passing.
-/

set_option autoImplicit false

namespace AB

/-- Python `datetime.date`: a proleptic Gregorian calendar date. -/
structure PyDate where
  year : Nat
  month : Nat
  day : Nat
deriving DecidableEq

/-- Python `datetime.datetime`: a date plus a time-of-day.  `strptime` with a
date-only format yields one with all time fields zero. -/
structure PyDateTime where
  year : Nat
  month : Nat
  day : Nat
  hour : Nat
  minute : Nat
  second : Nat
deriving DecidableEq

/-- Gregorian leap-year rule, as in Python `calendar.isleap`. -/
def isLeap (y : Nat) : Bool :=
  y % 4 == 0 && (y % 100 != 0 || y % 400 == 0)

/-- Number of days in month `m` (1-12) of year `y`; 0 for an invalid month. -/
def daysInMonth (y m : Nat) : Nat :=
  match m with
  | 1 => 31
  | 2 => if isLeap y then 29 else 28
  | 3 => 31
  | 4 => 30
  | 5 => 31
  | 6 => 30
  | 7 => 31
  | 8 => 31
  | 9 => 30
  | 10 => 31
  | 11 => 30
  | 12 => 31
  | _ => 0

/-- Days before January 1 of year `y` counted from date `0001-01-01 = day 1`,
as in CPython `datetime._days_before_year`. -/
def daysBeforeYear (y : Nat) : Nat :=
  let n := y - 1
  365 * n + n / 4 + n / 400 - n / 100

/-- Days in year `y` strictly before month `m`, as in CPython
`datetime._days_before_month`. -/
def daysBeforeMonth (y m : Nat) : Nat :=
  (List.range (m - 1)).foldl (fun a i => a + daysInMonth y (i + 1)) 0

/-- Python `date.toordinal`: `0001-01-01` is ordinal 1. -/
def toOrdinal (d : PyDate) : Nat :=
  daysBeforeYear d.year + daysBeforeMonth d.year d.month + d.day

/-- Python `date.weekday`: Monday is 0, Sunday is 6; ordinal 1 was a Monday. -/
def weekday (d : PyDate) : Nat :=
  (toOrdinal d + 6) % 7

/-- Python `date.__lt__`: lexicographic comparison of (year, month, day). -/
def pyDateLt (a b : PyDate) : Bool :=
  a.year < b.year ||
    (a.year == b.year &&
      (a.month < b.month || (a.month == b.month && a.day < b.day)))

/-- Python `(a - b).days` for dates: the signed ordinal difference. -/
def dateDiffDays (a b : PyDate) : Int :=
  (toOrdinal a : Int) - (toOrdinal b : Int)

/-- The calendar day after `d` (for valid dates). -/
def nextDay (d : PyDate) : PyDate :=
  if d.day < daysInMonth d.year d.month then ⟨d.year, d.month, d.day + 1⟩
  else if d.month < 12 then ⟨d.year, d.month + 1, 1⟩
  else ⟨d.year + 1, 1, 1⟩

/-- Python `d + timedelta(n)` for a nonnegative number of days. -/
def addDays : PyDate → Nat → PyDate
  | d, 0 => d
  | d, n + 1 => addDays (nextDay d) n

/-- Validity check performed by the Python `date`/`datetime` constructors:
`MINYEAR <= year <= MAXYEAR`, a real month, and a real day of that month. -/
def validYMD (y m d : Nat) : Bool :=
  1 ≤ y && y ≤ 9999 && 1 ≤ m && m ≤ 12 && 1 ≤ d && d ≤ daysInMonth y m

/-- Zero-pad a number to two digits, as `%d` / `%m` do in `strftime`. -/
def pad2 (n : Nat) : String :=
  if n < 10 then "0" ++ toString n else toString n

/-- Python `strftime("%d.%m.%Y")` (years of the program's interest have four
digits, so `%Y` is the plain decimal year). -/
def strftimeDMY (d : PyDate) : String :=
  pad2 d.day ++ "." ++ pad2 d.month ++ "." ++ toString d.year

/-- The Python exception kinds this program can raise. -/
inductive PyErr where
  | valueError (msg : String)
  | keyError
  | indexError
  | attributeError (msg : String)
deriving DecidableEq

/-- Python `datetime.date()`: drop the time-of-day. -/
def pyDateTimeDate (dt : PyDateTime) : PyDate :=
  ⟨dt.year, dt.month, dt.day⟩

/-- Python `datetime.replace(year=y)`: rebuilds the datetime, re-running the
constructor's validity check; raises `ValueError` when the stored month/day do
not exist in year `y` (e.g. February 29 in a non-leap year). -/
def replaceYear (dt : PyDateTime) (y : Nat) : Except PyErr PyDateTime :=
  if validYMD y dt.month dt.day then .ok { dt with year := y }
  else .error (.valueError "day is out of range for month")

/-- The Unicode decimal-digit (category Nd) code-point ranges beyond the ASCII
digits, as in CPython 3.11's `unicodedata` (Unicode 14.0).  Every range is a
run of ten consecutive code points with digit values 0-9 (the five
mathematical-digit ranges partition the contiguous block 1D7CE-1D7FF). -/
def ndExtraRanges : List (Nat × Nat) :=
  [(0x660, 0x669), (0x6F0, 0x6F9), (0x7C0, 0x7C9), (0x966, 0x96F),
   (0x9E6, 0x9EF), (0xA66, 0xA6F), (0xAE6, 0xAEF), (0xB66, 0xB6F),
   (0xBE6, 0xBEF), (0xC66, 0xC6F), (0xCE6, 0xCEF), (0xD66, 0xD6F),
   (0xDE6, 0xDEF), (0xE50, 0xE59), (0xED0, 0xED9), (0xF20, 0xF29),
   (0x1040, 0x1049), (0x1090, 0x1099), (0x17E0, 0x17E9), (0x1810, 0x1819),
   (0x1946, 0x194F), (0x19D0, 0x19D9), (0x1A80, 0x1A89), (0x1A90, 0x1A99),
   (0x1B50, 0x1B59), (0x1BB0, 0x1BB9), (0x1C40, 0x1C49), (0x1C50, 0x1C59),
   (0xA620, 0xA629), (0xA8D0, 0xA8D9), (0xA900, 0xA909), (0xA9D0, 0xA9D9),
   (0xA9F0, 0xA9F9), (0xAA50, 0xAA59), (0xABF0, 0xABF9), (0xFF10, 0xFF19),
   (0x104A0, 0x104A9), (0x10D30, 0x10D39), (0x11066, 0x1106F), (0x110F0, 0x110F9),
   (0x11136, 0x1113F), (0x111D0, 0x111D9), (0x112F0, 0x112F9), (0x11450, 0x11459),
   (0x114D0, 0x114D9), (0x11650, 0x11659), (0x116C0, 0x116C9), (0x11730, 0x11739),
   (0x118E0, 0x118E9), (0x11950, 0x11959), (0x11C50, 0x11C59), (0x11D50, 0x11D59),
   (0x11DA0, 0x11DA9), (0x16A60, 0x16A69), (0x16AC0, 0x16AC9), (0x16B50, 0x16B59),
   (0x1D7CE, 0x1D7D7), (0x1D7D8, 0x1D7E1), (0x1D7E2, 0x1D7EB), (0x1D7EC, 0x1D7F5),
   (0x1D7F6, 0x1D7FF), (0x1E140, 0x1E149), (0x1E2F0, 0x1E2F9), (0x1E950, 0x1E959),
   (0x1FBF0, 0x1FBF9)]

/-- Python's regex `\d` with a `str` pattern: any Unicode decimal digit
(category Nd) — the ASCII digits or a code point in one of the further Nd
ranges. -/
def pyIsDigit (c : Char) : Bool :=
  c.isDigit || ndExtraRanges.any (fun r => r.1 ≤ c.toNat && c.toNat ≤ r.2)

/-- The decimal value of a Unicode digit, as `int()` uses it: its offset in
its run of ten (each Nd run starts at digit value 0); 0 for a non-digit. -/
def pyDigitVal (c : Char) : Nat :=
  if c.isDigit then c.toNat - 48
  else
    match ndExtraRanges.find? (fun r => r.1 ≤ c.toNat && c.toNat ≤ r.2) with
    | some r => c.toNat - r.1
    | none => 0

/-- Python `re.match('^\d{10}$', s)` viewed as a Bool: ten Unicode decimal
digits, optionally followed by a single trailing newline, since Python's `$`
matches at the end of the string or just before a newline that ends the
string. -/
def reMatchTenDigits (s : String) : Bool :=
  (s.data.length == 10 && s.data.all pyIsDigit) ||
    (s.data.length == 11 && (s.data.take 10).all pyIsDigit &&
      s.data.getLast? == some '\n')

/-- The `Phone` field: stores whatever string the constructor accepted. -/
structure Phone where
  value : String
deriving DecidableEq

/-- `Phone.__init__`: accepts exactly the strings matched by
`re.match('^\d{10}$', phone)`; raises a bare `ValueError` otherwise. -/
def Phone.init (phone : String) : Except PyErr Phone :=
  if reMatchTenDigits phone then .ok ⟨phone⟩ else .error (.valueError "")

/-- Split a character list at every occurrence of `c` (as Python
`str.split('.')` does for the dot); used to state membership in the language of
the `strptime` regex, whose literal dots must align with the string's dots
because the numeric fields contain no dot. -/
def splitOnChar (c : Char) : List Char → List (List Char)
  | [] => [[]]
  | x :: xs =>
    let r := splitOnChar c xs
    if x == c then [] :: r
    else
      match r with
      | h :: t => (x :: h) :: t
      | [] => [[x]]

/-- Decimal value of a digit string, as Python `int()` computes it (each
Unicode digit contributes its decimal value; a leading space, as in the
space-padded day form, contributes nothing and is handled by its caller). -/
def numVal (cs : List Char) : Nat :=
  cs.foldl (fun a c => 10 * a + pyDigitVal c) 0

/-- Language of CPython's `%d` directive, the regex
`3[0-1]|[1-2]\d|0[1-9]|[1-9]| [1-9]` (CPython 3.11 `_strptime`): the explicit
characters and the classes `[0-1]`, `[1-9]` are ASCII (`'1'`-`'9'` are code
points 49-57), while `\d` after a tens digit 1 or 2 is any Unicode decimal
digit; the last alternative is a space-padded single digit. -/
def dayLang : List Char → Option Nat
  | [a] => if 49 ≤ a.toNat ∧ a.toNat ≤ 57 then some (numVal [a]) else none
  | [a, b] =>
    if a = '3' ∧ (b = '0' ∨ b = '1') then some (numVal [a, b])
    else if (a = '1' ∨ a = '2') ∧ pyIsDigit b = true then some (numVal [a, b])
    else if a = '0' ∧ (49 ≤ b.toNat ∧ b.toNat ≤ 57) then some (numVal [a, b])
    else if a = ' ' ∧ (49 ≤ b.toNat ∧ b.toNat ≤ 57) then some (numVal [b])
    else none
  | _ => none

/-- Language of CPython's `%m` directive, the regex `1[0-2]|0[1-9]|[1-9]`:
a two-digit string with value 01-12, or a single digit 1-9. -/
def monthLang : List Char → Option Nat
  | [a] => if a.isDigit then (if 1 ≤ numVal [a] then some (numVal [a]) else none) else none
  | [a, b] =>
    if a.isDigit && b.isDigit then
      (if 1 ≤ numVal [a, b] ∧ numVal [a, b] ≤ 12 then some (numVal [a, b]) else none)
    else none
  | _ => none

/-- Language of CPython's `%Y` directive, the regex `\d\d\d\d`: exactly four
Unicode decimal digits. -/
def yearLang (cs : List Char) : Option Nat :=
  if cs.length == 4 && cs.all pyIsDigit then some (numVal cs) else none

/-- Python `datetime.strptime(s, "%d.%m.%Y")`: the anchored regex
`(3[0-1]|[1-2]\d|0[1-9]|[1-9]| [1-9])\.(1[0-2]|0[1-9]|[1-9])\.(\d\d\d\d)`
must consume the whole string, after which the `date` constructor re-validates
the day/month/year combination (so impossible dates like 31.02 fail).  The
literal dots of the pattern must align with the string's dots, because no
alternative of the numeric fields contains a dot; `none` stands for the
`ValueError` that `strptime` raises. -/
def strptimeDMY (s : String) : Option (Nat × Nat × Nat) :=
  match splitOnChar '.' s.data with
  | [ds, ms, ys] =>
    match dayLang ds, monthLang ms, yearLang ys with
    | some d, some m, some y => if validYMD y m d then some (y, m, d) else none
    | _, _, _ => none
  | _ => none

/-- The `Birthday` field: stores the `datetime` object `strptime` returned. -/
structure Birthday where
  value : PyDateTime
deriving DecidableEq

/-- `Birthday.__init__`: parses with `strptime("%d.%m.%Y")` (the result is a
midnight `datetime`) and converts any parse failure into a `ValueError` with
the fixed message. -/
def Birthday.init (birthday : String) : Except PyErr Birthday :=
  match strptimeDMY birthday with
  | some (y, m, d) => .ok ⟨⟨y, m, d, 0, 0, 0⟩⟩
  | none => .error (.valueError "Invalid date format. Use DD.MM.YYYY")

/-- The `Name` field. -/
structure Name where
  value : String
deriving DecidableEq

/-- `Name.__init__`: raises a bare `ValueError` on a falsy (empty) name. -/
def Name.init (name : String) : Except PyErr Name :=
  if name == "" then .error (.valueError "") else .ok ⟨name⟩

/-- A `Record`: one contact's name, ordered phone list and optional birthday. -/
structure Record where
  name : Name
  phones : List Phone
  birthday : Option Birthday
deriving DecidableEq

/-- `Record.add_phone`: scans `self.phones` for an equal value and returns
unchanged if found; otherwise appends `Phone(phone)`, propagating the
constructor's `ValueError` for a rejected string. -/
def Record.add_phone (r : Record) (phone : String) : Except PyErr Record :=
  if r.phones.any (fun ph => ph.value == phone) then .ok r
  else
    match Phone.init phone with
    | .ok ph => .ok { r with phones := r.phones ++ [ph] }
    | .error e => .error e

/-- Drop the first phone whose value equals `phone`; `none` when absent. -/
def removeFirst (phone : String) : List Phone → Option (List Phone)
  | [] => none
  | ph :: t =>
    if ph.value == phone then some t
    else (removeFirst phone t).map (ph :: ·)

/-- `Record.remove_phone`: removes the first phone with the given value and
raises a bare `ValueError` when no phone matches. -/
def Record.remove_phone (r : Record) (phone : String) : Except PyErr Record :=
  match removeFirst phone r.phones with
  | some l => .ok { r with phones := l }
  | none => .error (.valueError "")

/-- Overwrite, in place, the value of the first phone equal to `old`;
`none` when absent. -/
def editFirst (old new : String) : List Phone → Option (List Phone)
  | [] => none
  | ph :: t =>
    if ph.value == old then some (⟨new⟩ :: t)
    else (editFirst old new t).map (ph :: ·)

/-- `Record.edit_phone`: sets `ph.value = new_phone` on the first phone whose
value is `old_phone` — with no validation of the new value — and raises a bare
`ValueError` when `old_phone` is not present. -/
def Record.edit_phone (r : Record) (old_phone new_phone : String) :
    Except PyErr Record :=
  match editFirst old_phone new_phone r.phones with
  | some l => .ok { r with phones := l }
  | none => .error (.valueError "")

/-- `Record.find_phone`: returns the value of the first phone equal to the
argument (hence the argument itself) and raises a bare `ValueError` when no
phone matches. -/
def Record.find_phone (r : Record) (phone : String) : Except PyErr String :=
  if r.phones.any (fun ph => ph.value == phone) then .ok phone
  else .error (.valueError "")

/-- `Record.add_birthday`: replaces the birthday with `Birthday(birthday)`,
propagating its validation failure. -/
def Record.add_birthday (r : Record) (birthday : String) : Except PyErr Record :=
  (Birthday.init birthday).map (fun b => { r with birthday := some b })

/-- The `AddressBook`'s `UserDict` payload: an insertion-ordered mapping from
contact name to `Record`, exactly a Python `dict`'s item sequence (keys are
unique in any state a `dict` can reach). -/
structure AddressBook where
  data : List (String × Record)
deriving DecidableEq

/-- First record stored under `name`, if any. -/
def lookupName (name : String) : List (String × Record) → Option Record
  | [] => none
  | (n, r) :: t => if n == name then some r else lookupName name t

/-- `AddressBook.find` = `self.get(name)`: the record, or `None`. -/
def AddressBook.find (book : AddressBook) (name : String) : Option Record :=
  lookupName name book.data

/-- The candidate-date computation of `get_upcoming_birthdays`:
`birthday.value.replace(year=today.year).date()`, replaced again with next year
when the date has already passed this year.  Either `replace` may raise. -/
def stepCandidate (today : PyDate) (dt : PyDateTime) : Except PyErr PyDate :=
  match replaceYear dt today.year with
  | .error e => .error e
  | .ok c1 =>
    if pyDateLt (pyDateTimeDate c1) today then
      (replaceYear dt (today.year + 1)).map pyDateTimeDate
    else .ok (pyDateTimeDate c1)

/-- Loop body of `get_upcoming_birthdays` for one record: `ok none` when the
record contributes no entry (no birthday, or birthday more than 7 days out),
`ok (some s)` when it contributes the congratulation string `s`, and `error`
when the candidate computation raised. -/
def upcomingStep (today : PyDate) (r : Record) : Except PyErr (Option String) :=
  match r.birthday with
  | none => .ok none
  | some b =>
    match stepCandidate today b.value with
    | .error e => .error e
    | .ok bd =>
      if (7 : Int) < dateDiffDays bd today then .ok none
      else if weekday bd < 5 then .ok (some (strftimeDMY bd))
      else if weekday bd == 5 then .ok (some (strftimeDMY (addDays bd 2)))
      else if weekday bd == 6 then .ok (some (strftimeDMY (addDays bd 1)))
      else .ok none

/-- The `for name in self.data` loop of `get_upcoming_birthdays`, accumulating
the `bdays` mapping in insertion order.  Iterating the dict's keys and calling
`self.find(name)` retrieves, for each key, exactly the record paired with it. -/
def getUBgo (today : PyDate) :
    List (String × Record) → List (String × String) →
      Except PyErr (List (String × String))
  | [], acc => .ok acc
  | (name, r) :: rest, acc =>
    match upcomingStep today r with
    | .error e => .error e
    | .ok none => getUBgo today rest acc
    | .ok (some s) => getUBgo today rest (acc ++ [(name, s)])

/-- `AddressBook.get_upcoming_birthdays`, with `today` (the call to
`datetime.today().date()`) made an explicit parameter. -/
def AddressBook.get_upcoming_birthdays (book : AddressBook) (today : PyDate) :
    Except PyErr (List (String × String)) :=
  getUBgo today book.data []

/-- State-passing rendering of the same loop: the `AddressBook` value is
threaded through every iteration, so that any store into the book would show up
in the returned state.  The loop body contains none. -/
def getUBgoState (today : PyDate) :
    List (String × Record) → AddressBook → List (String × String) →
      Except PyErr (List (String × String) × AddressBook)
  | [], bk, acc => .ok (acc, bk)
  | (name, r) :: rest, bk, acc =>
    match upcomingStep today r with
    | .error e => .error e
    | .ok none => getUBgoState today rest bk acc
    | .ok (some s) => getUBgoState today rest bk (acc ++ [(name, s)])

/-- `get_upcoming_birthdays` as a state transformer on the book. -/
def AddressBook.get_upcoming_birthdays_state (book : AddressBook)
    (today : PyDate) : Except PyErr (List (String × String) × AddressBook) :=
  getUBgoState today book.data book []

/-- The `input_error` decorator's `inner`, applied to an already-computed
handler outcome: `KeyError`, `ValueError` and `IndexError` become the three
fixed reply strings; any other exception kind propagates (and, in `main`,
terminates the process). -/
def input_error (r : Except PyErr String) : Except PyErr String :=
  match r with
  | .ok s => .ok s
  | .error (.valueError _) => .ok "Please enter the correct arguments"
  | .error .keyError => .ok "The contact exists"
  | .error .indexError => .ok "No such contacts"
  | .error e => .error e

/-- The `show_birthday` handler: `args[0]` raises `IndexError` when empty;
`book.find(name)` yields `None` for an absent contact, so `record.birthday`
raises `AttributeError`; a present record with no birthday makes
`record.birthday.value` raise `AttributeError`; otherwise the birthday is
formatted with `strftime("%d.%m.%Y")`. -/
def show_birthday (args : List String) (book : AddressBook) :
    Except PyErr String :=
  match args with
  | [] => .error .indexError
  | name :: _ =>
    match book.find name with
    | none => .error (.attributeError "NoneType object has no attribute birthday")
    | some r =>
      match r.birthday with
      | none => .error (.attributeError "NoneType object has no attribute value")
      | some b => .ok (strftimeDMY (pyDateTimeDate b.value))

/-! Specification-side definitions, written from the claims' words, to be
compared with the source-side functions above. -/

/-- Spec side: "exactly 10 ASCII digits and nothing else". -/
def isTenDigits (s : String) : Bool :=
  s.data.length == 10 && s.data.all Char.isDigit

/-- Spec side (amended phone claim): the first ten characters are Unicode
decimal digits and they are the whole string, or a single trailing newline
follows them. -/
def acceptPhoneSpec (s : String) : Bool :=
  (s.data.length == 10 || (s.data.length == 11 && s.data.getLast? == some '\n'))
    && (s.data.take 10).all pyIsDigit

/-- Spec side: the strict literal shape `DD.MM.YYYY` — two-digit day, two-digit
month, four-digit year, denoting a real calendar date. -/
def strictDDMMYYYY (s : String) : Bool :=
  match splitOnChar '.' s.data with
  | [ds, ms, ys] =>
    ds.length == 2 && ms.length == 2 && ys.length == 4 &&
      ds.all Char.isDigit && ms.all Char.isDigit && ys.all Char.isDigit &&
      validYMD (numVal ys) (numVal ms) (numVal ds)
  | _ => none == some 0

/-- Spec side (amended birthday claim): the day field is a single ASCII digit
with value 1-9, possibly space-padded, or an ASCII tens digit with a units
digit — allowed to be a non-ASCII Unicode digit exactly when the tens digit is
1 or 2 — with combined value 1-31. -/
def specDay : List Char → Option Nat
  | [a] =>
    if 48 ≤ a.toNat ∧ a.toNat ≤ 57 ∧ 1 ≤ numVal [a] then some (numVal [a])
    else none
  | [a, b] =>
    if a = ' ' then
      (if 48 ≤ b.toNat ∧ b.toNat ≤ 57 ∧ 1 ≤ numVal [b] then some (numVal [b])
       else none)
    else
      if 48 ≤ a.toNat ∧ a.toNat ≤ 57 ∧ pyIsDigit b = true ∧
          (a.toNat = 49 ∨ a.toNat = 50 ∨ (48 ≤ b.toNat ∧ b.toNat ≤ 57)) ∧
          1 ≤ numVal [a, b] ∧ numVal [a, b] ≤ 31 then some (numVal [a, b])
      else none
  | _ => none

/-- Spec side (amended birthday claim): month field of one or two digits with
value at least 1 (at most 12 in the two-digit form). -/
def specMonth (cs : List Char) : Option Nat :=
  if cs.all Char.isDigit &&
      (cs.length == 1 && 1 ≤ numVal cs ||
        cs.length == 2 && 1 ≤ numVal cs && numVal cs ≤ 12) then
    some (numVal cs)
  else none

/-- Spec side (amended birthday claim): year field of exactly four Unicode
decimal digits. -/
def specYear (cs : List Char) : Option Nat :=
  if cs.all pyIsDigit && cs.length == 4 then some (numVal cs) else none

/-- Spec side (amended birthday claim): the accepted date strings — day, month
and year fields separated by dots, with the lenient day/month widths, denoting
a real calendar date. -/
def specDateAccepts (s : String) : Option (Nat × Nat × Nat) :=
  match splitOnChar '.' s.data with
  | [ds, ms, ys] =>
    match specDay ds, specMonth ms, specYear ys with
    | some d, some m, some y => if validYMD y m d then some (y, m, d) else none
    | _, _, _ => none
  | _ => none

/-- Spec side: the claimed candidate date — the birthday's month/day applied to
the current year, advanced to the next year when it has already passed;
undefined when that month/day does not exist in the target year. -/
def specCandidate (today : PyDate) (dt : PyDateTime) : Option PyDate :=
  if validYMD today.year dt.month dt.day then
    let c : PyDate := ⟨today.year, dt.month, dt.day⟩
    if pyDateLt c today then
      if validYMD (today.year + 1) dt.month dt.day then
        some ⟨today.year + 1, dt.month, dt.day⟩
      else none
    else some c
  else none

/-- Spec side: a record qualifies for the upcoming-birthdays result when it has
a birthday whose candidate date lies at most 7 days after today. -/
def qualifies (today : PyDate) (r : Record) : Bool :=
  match r.birthday with
  | none => false
  | some b =>
    match specCandidate today b.value with
    | none => false
    | some c => dateDiffDays c today ≤ 7

/-- Spec side: the claimed congratulation date — the candidate shifted forward
2 days from a Saturday, 1 day from a Sunday, and unchanged otherwise. -/
def specShift (c : PyDate) : PyDate :=
  if weekday c == 5 then addDays c 2
  else if weekday c == 6 then addDays c 1
  else c

/-- The no-duplicate-phone-values invariant of a record. -/
def phonesNodup (r : Record) : Prop :=
  (r.phones.map Phone.value).Nodup

instance phonesNodupDec (r : Record) : Decidable (phonesNodup r) :=
  List.nodupDecidable _

/-! Concrete data for the scenarios of the claims. -/

/-- Today's date in scenarios A, B, C: Wednesday 2024-01-10. -/
def d20240110 : PyDate := ⟨2024, 1, 10⟩

/-- Contact Ann with birthday 12.01.1990 and one phone. -/
def annRec : Record := ⟨⟨"Ann"⟩, [⟨"1234567890"⟩], some ⟨⟨1990, 1, 12, 0, 0, 0⟩⟩⟩

/-- Contact Cara with birthday 01.03.1992 (more than 7 days out). -/
def caraRec : Record := ⟨⟨"Cara"⟩, [], some ⟨⟨1992, 3, 1, 0, 0, 0⟩⟩⟩

/-- Contact Bob with birthday 13.01.1985 (a Saturday in 2024). -/
def bobRec : Record := ⟨⟨"Bob"⟩, [], some ⟨⟨1985, 1, 13, 0, 0, 0⟩⟩⟩

/-- Contact Zed with birthday 29.02.2020 (a leap day). -/
def zedRec : Record := ⟨⟨"Zed"⟩, [], some ⟨⟨2020, 2, 29, 0, 0, 0⟩⟩⟩

/-- Book holding Ann and Cara. -/
def annCaraBook : AddressBook := ⟨[("Ann", annRec), ("Cara", caraRec)]⟩

/-- Book holding only Bob. -/
def bobBook : AddressBook := ⟨[("Bob", bobRec)]⟩

/-- Book holding only Zed. -/
def zedBook : AddressBook := ⟨[("Zed", zedRec)]⟩

/-- A record holding two distinct valid phones. -/
def twoPhoneRec : Record := ⟨⟨"Dup"⟩, [⟨"1111111111"⟩, ⟨"2222222222"⟩], none⟩

/-- Book holding a contact that has no birthday set. -/
def dupBook : AddressBook := ⟨[("Dup", twoPhoneRec)]⟩

/-- A one-phone record for the edit/find scenario. -/
def wRec : Record := ⟨⟨"W"⟩, [⟨"0123456789"⟩], none⟩

end AB


namespace AB

/-! Helper lemmas. -/

/-- List-level form of the phone regex / spec-characterization agreement. -/
theorem reMatch_list (cs : List Char) :
    ((cs.length == 10 && cs.all pyIsDigit) ||
      (cs.length == 11 && (cs.take 10).all pyIsDigit && cs.getLast? == some '\n'))
    = ((cs.length == 10 || (cs.length == 11 && cs.getLast? == some '\n'))
        && (cs.take 10).all pyIsDigit) := by
  by_cases h10 : cs.length = 10
  · have ht : cs.take 10 = cs := List.take_of_length_le (by omega)
    simp [h10, ht]
  · have e10 : (cs.length == 10) = false := by simp [h10]
    by_cases h11 : cs.length = 11
    · simp [h11, Bool.and_comm]
    · have e11 : (cs.length == 11) = false := by simp [h11]
      simp [e10, e11]

/-- The Python regex acceptance for phones coincides with the spec-side
characterization "ten ASCII digits, optionally a single trailing newline". -/
theorem reMatch_eq_accept (s : String) : reMatchTenDigits s = acceptPhoneSpec s :=
  reMatch_list s.data

/-- A record's phone scan finds `p` exactly when `p` is among the values. -/
theorem any_value_iff (l : List Phone) (p : String) :
    (l.any fun ph => ph.value == p) = true ↔ p ∈ l.map Phone.value := by
  rw [List.any_eq_true]
  constructor
  · rintro ⟨ph, hmem, hbeq⟩
    exact List.mem_map.mpr ⟨ph, hmem, by simpa using hbeq⟩
  · intro h
    rcases List.mem_map.mp h with ⟨ph, hmem, hval⟩
    exact ⟨ph, hmem, by simp [hval]⟩

/-- A successful `Phone.__init__` stores exactly the input string. -/
theorem Phone.init_ok {p : String} {ph : Phone} (h : Phone.init p = .ok ph) :
    ph = ⟨p⟩ := by
  unfold Phone.init at h
  by_cases hc : reMatchTenDigits p = true
  · rw [if_pos hc] at h; injection h with h; exact h.symm
  · rw [if_neg hc] at h; cases h

/-- Characters with equal code points are equal. -/
theorem char_toNat_inj {a b : Char} (h : a.toNat = b.toNat) : a = b := by
  rw [← Char.ofNat_toNat a, h, Char.ofNat_toNat]

/-- `Char.isDigit` in terms of the code point. -/
theorem isDigit_iff (c : Char) : c.isDigit = true ↔ 48 ≤ c.toNat ∧ c.toNat ≤ 57 := by
  unfold Char.isDigit
  rw [Bool.and_eq_true, decide_eq_true_eq, decide_eq_true_eq]
  exact Iff.rfl

/-- Every ASCII digit is a Unicode decimal digit. -/
theorem pyIsDigit_of_isDigit {c : Char} (h : c.isDigit = true) :
    pyIsDigit c = true := by
  unfold pyIsDigit
  rw [h]
  rfl

/-- On ASCII digits the Unicode digit value is the usual one. -/
theorem pyDigitVal_ascii {c : Char} (h : c.isDigit = true) :
    pyDigitVal c = c.toNat - 48 := by
  unfold pyDigitVal
  rw [if_pos h]

/-- Every listed Nd range is a run of ten code points. -/
theorem ndExtraRanges_runs : ∀ r ∈ ndExtraRanges, r.2 = r.1 + 9 := by decide

/-- A Unicode digit value is a single decimal digit. -/
theorem pyDigitVal_le_nine (c : Char) : pyDigitVal c ≤ 9 := by
  unfold pyDigitVal
  by_cases hd : c.isDigit = true
  · rw [if_pos hd]
    have := (isDigit_iff c).mp hd
    omega
  · rw [if_neg hd]
    cases hf : ndExtraRanges.find? (fun r => r.1 ≤ c.toNat && c.toNat ≤ r.2) with
    | none => exact Nat.zero_le 9
    | some r =>
      have hp := List.find?_some hf
      have hmem := List.mem_of_find?_eq_some hf
      rw [Bool.and_eq_true, decide_eq_true_eq, decide_eq_true_eq] at hp
      have hrun := ndExtraRanges_runs r hmem
      show c.toNat - r.1 ≤ 9
      omega

/-- The value of a one-character digit string. -/
theorem numVal_one (a : Char) : numVal [a] = pyDigitVal a := by
  unfold numVal
  simp [List.foldl]

/-- The value of a two-character digit string. -/
theorem numVal_two (a b : Char) :
    numVal [a, b] = 10 * pyDigitVal a + pyDigitVal b := by
  unfold numVal
  simp [List.foldl]

/-- CPython's `%d` language agrees with the spec-side lenient day field. -/
theorem dayLang_eq_specDay (cs : List Char) : dayLang cs = specDay cs := by
  rcases cs with _ | ⟨a, _ | ⟨b, _ | ⟨c, t⟩⟩⟩
  · rfl
  · simp only [dayLang, specDay]
    by_cases h : 49 ≤ a.toNat ∧ a.toNat ≤ 57
    · have hd : a.isDigit = true := (isDigit_iff a).mpr ⟨by omega, h.2⟩
      have hv : numVal [a] = a.toNat - 48 := by rw [numVal_one, pyDigitVal_ascii hd]
      rw [if_pos h, if_pos ⟨by omega, h.2, by rw [hv]; omega⟩]
    · have hs : ¬(48 ≤ a.toNat ∧ a.toNat ≤ 57 ∧ 1 ≤ numVal [a]) := by
        rintro ⟨h1, h2, h3⟩
        have hd : a.isDigit = true := (isDigit_iff a).mpr ⟨h1, h2⟩
        rw [numVal_one, pyDigitVal_ascii hd] at h3
        exact h ⟨by omega, h2⟩
      rw [if_neg h, if_neg hs]
  · simp only [dayLang, specDay]
    by_cases hsp : a = ' '
    · subst hsp
      have e3 : ¬((' ' : Char) = '3' ∧ (b = '0' ∨ b = '1')) :=
        fun hh => absurd hh.1 (by decide)
      have e12 : ¬(((' ' : Char) = '1' ∨ (' ' : Char) = '2') ∧ pyIsDigit b = true) := by
        rintro ⟨hh | hh, _⟩ <;> exact absurd hh (by decide)
      have e0 : ¬((' ' : Char) = '0' ∧ (49 ≤ b.toNat ∧ b.toNat ≤ 57)) :=
        fun hh => absurd hh.1 (by decide)
      rw [if_neg e3, if_neg e12, if_neg e0, if_pos rfl]
      by_cases hb : 49 ≤ b.toNat ∧ b.toNat ≤ 57
      · have hd : b.isDigit = true := (isDigit_iff b).mpr ⟨by omega, hb.2⟩
        have hv : numVal [b] = b.toNat - 48 := by rw [numVal_one, pyDigitVal_ascii hd]
        rw [if_pos ⟨rfl, hb⟩, if_pos ⟨by omega, hb.2, by rw [hv]; omega⟩]
      · have hs : ¬(48 ≤ b.toNat ∧ b.toNat ≤ 57 ∧ 1 ≤ numVal [b]) := by
          rintro ⟨h1, h2, h3⟩
          have hd : b.isDigit = true := (isDigit_iff b).mpr ⟨h1, h2⟩
          rw [numVal_one, pyDigitVal_ascii hd] at h3
          exact hb ⟨by omega, h2⟩
        rw [if_neg (fun hh => hb hh.2), if_neg hs]
    · rw [if_neg hsp]
      by_cases hC1 : a = '3' ∧ (b = '0' ∨ b = '1')
      · obtain ⟨ha, hb01⟩ := hC1
        subst ha
        rcases hb01 with hb | hb <;> subst hb <;> rfl
      · rw [if_neg hC1]
        by_cases hC2 : (a = '1' ∨ a = '2') ∧ pyIsDigit b = true
        · obtain ⟨ha, hpb⟩ := hC2
          have hble := pyDigitVal_le_nine b
          rcases ha with ha | ha <;> subst ha
          · have hv : numVal ['1', b] = 10 + pyDigitVal b := by
              rw [numVal_two, show pyDigitVal '1' = 1 from rfl]
            rw [if_pos ⟨Or.inl rfl, hpb⟩,
              if_pos ⟨by decide, by decide, hpb, Or.inl (by decide),
                by rw [hv]; omega, by rw [hv]; omega⟩]
          · have hv : numVal ['2', b] = 20 + pyDigitVal b := by
              rw [numVal_two, show pyDigitVal '2' = 2 from rfl]
            rw [if_pos ⟨Or.inr rfl, hpb⟩,
              if_pos ⟨by decide, by decide, hpb, Or.inr (Or.inl (by decide)),
                by rw [hv]; omega, by rw [hv]; omega⟩]
        · rw [if_neg hC2]
          by_cases hC3 : a = '0' ∧ (49 ≤ b.toNat ∧ b.toNat ≤ 57)
          · obtain ⟨ha, hb⟩ := hC3
            subst ha
            have hdb : b.isDigit = true := (isDigit_iff b).mpr ⟨by omega, hb.2⟩
            have hv : numVal ['0', b] = b.toNat - 48 := by
              rw [numVal_two, pyDigitVal_ascii hdb,
                show pyDigitVal '0' = 0 from rfl]
              omega
            rw [if_pos ⟨rfl, hb⟩,
              if_pos ⟨by decide, by decide, pyIsDigit_of_isDigit hdb,
                Or.inr (Or.inr ⟨by omega, hb.2⟩),
                by rw [hv]; omega, by rw [hv]; omega⟩]
          · rw [if_neg hC3, if_neg (fun hh => hsp hh.1)]
            have hS2 : ¬(48 ≤ a.toNat ∧ a.toNat ≤ 57 ∧ pyIsDigit b = true ∧
                (a.toNat = 49 ∨ a.toNat = 50 ∨ (48 ≤ b.toNat ∧ b.toNat ≤ 57)) ∧
                1 ≤ numVal [a, b] ∧ numVal [a, b] ≤ 31) := by
              rintro ⟨h48, h57, hpb, hthird, hv1, hv31⟩
              have hda : a.isDigit = true := (isDigit_iff a).mpr ⟨h48, h57⟩
              rw [numVal_two, pyDigitVal_ascii hda] at hv1 hv31
              by_cases h49 : a.toNat = 49
              · exact hC2 ⟨Or.inl (char_toNat_inj
                  (h49.trans (show (49 : Nat) = Char.toNat '1' from rfl))), hpb⟩
              · by_cases h50 : a.toNat = 50
                · exact hC2 ⟨Or.inr (char_toNat_inj
                    (h50.trans (show (50 : Nat) = Char.toNat '2' from rfl))), hpb⟩
                · rcases hthird with h | h | hb57
                  · exact h49 h
                  · exact h50 h
                  · have hdb : b.isDigit = true := (isDigit_iff b).mpr hb57
                    rw [pyDigitVal_ascii hdb] at hv1 hv31
                    by_cases h48e : a.toNat = 48
                    · exact hC3 ⟨char_toNat_inj
                        (h48e.trans (show (48 : Nat) = Char.toNat '0' from rfl)),
                        by omega, hb57.2⟩
                    · by_cases h51 : a.toNat = 51
                      · have ha3 : a = '3' := char_toNat_inj
                          (h51.trans (show (51 : Nat) = Char.toNat '3' from rfl))
                        have hb01 : b.toNat = 48 ∨ b.toNat = 49 := by omega
                        rcases hb01 with hb48 | hb49
                        · exact hC1 ⟨ha3, Or.inl (char_toNat_inj
                            (hb48.trans (show (48 : Nat) = Char.toNat '0' from rfl)))⟩
                        · exact hC1 ⟨ha3, Or.inr (char_toNat_inj
                            (hb49.trans (show (49 : Nat) = Char.toNat '1' from rfl)))⟩
                      · omega
            rw [if_neg hS2]
  · rfl

/-- CPython's `%m` language agrees with the spec-side lenient month field. -/
theorem monthLang_eq_specMonth (cs : List Char) : monthLang cs = specMonth cs := by
  rcases cs with _ | ⟨a, _ | ⟨b, _ | ⟨c, t⟩⟩⟩
  · rfl
  · cases hd : a.isDigit
    · simp [monthLang, specMonth, hd]
    · by_cases hv : 1 ≤ numVal [a] <;> simp [monthLang, specMonth, hd, hv]
  · cases hda : a.isDigit
    · simp [monthLang, specMonth, hda]
    · cases hdb : b.isDigit
      · simp [monthLang, specMonth, hda, hdb]
      · by_cases hv : 1 ≤ numVal [a, b]
        · by_cases hv2 : numVal [a, b] ≤ 12 <;>
            simp [monthLang, specMonth, hda, hdb, hv, hv2]
        · simp [monthLang, specMonth, hda, hdb, hv]
  · cases hd : ((a :: b :: c :: t).all Char.isDigit) <;>
      simp [monthLang, specMonth, hd]

/-- CPython's `%Y` language agrees with the spec-side four-digit year field. -/
theorem yearLang_eq_specYear (cs : List Char) : yearLang cs = specYear cs := by
  unfold yearLang specYear
  rw [Bool.and_comm]

/-- `strptime("%d.%m.%Y")` acceptance agrees with the spec-side lenient
date characterization. -/
theorem strptime_eq_spec (s : String) : strptimeDMY s = specDateAccepts s := by
  unfold strptimeDMY specDateAccepts
  rcases hsp : splitOnChar '.' s.data with _ | ⟨ds, _ | ⟨ms, _ | ⟨ys, _ | ⟨zs, t⟩⟩⟩⟩
  · rfl
  · rfl
  · rfl
  · simp only [dayLang_eq_specDay, monthLang_eq_specMonth, yearLang_eq_specYear]
  · rfl

/-- Ten plain digits are accepted by the phone regex. -/
theorem tenDigits_reMatch (p : String) (h : isTenDigits p = true) :
    reMatchTenDigits p = true := by
  unfold isTenDigits at h
  rw [Bool.and_eq_true] at h
  obtain ⟨h1, h2⟩ := h
  have hall : p.data.all pyIsDigit = true := by
    rw [List.all_eq_true] at h2 ⊢
    intro c hc
    exact pyIsDigit_of_isDigit (h2 c hc)
  unfold reMatchTenDigits
  rw [h1, hall]
  rfl

end AB

namespace AB

/-- C3 (counterexample): `Phone("1234567890\n")` — ten digits followed by a
newline, hence not "exactly 10 ASCII digits and nothing else" — is accepted,
and the stored value keeps the newline: Python's `$` matches just before a
newline that ends the string. -/
theorem phone_trailing_newline_cx :
    Phone.init "1234567890\n" = .ok ⟨"1234567890\n"⟩
    ∧ isTenDigits "1234567890\n" = false := ⟨rfl, rfl⟩

/-- C3 (amended): Phone construction succeeds, storing exactly the input,
if and only if the input is ten Unicode decimal digits (Python `\d`,
category Nd, which includes the ASCII digits) optionally followed by a single
trailing newline; every other string fails with a bare `ValueError`. -/
theorem phone_accept_iff (p : String) :
    (Phone.init p = .ok ⟨p⟩ ↔ acceptPhoneSpec p = true)
    ∧ (acceptPhoneSpec p = false → Phone.init p = .error (.valueError "")) := by
  unfold Phone.init
  rw [reMatch_eq_accept]
  constructor
  · by_cases h : acceptPhoneSpec p = true
    · simp [h]
    · simp [h]
  · intro h
    simp [h]

/-- C3 (witness): the amended claim evaluated at a plain ten-digit string, at
ten Arabic-Indic digits (accepted, with the Unicode string stored), and at a
malformed phone. -/
theorem phone_accept_iff_inst :
    Phone.init "0123456789" = .ok ⟨"0123456789"⟩
    ∧ Phone.init "١٢٣٤٥٦٧٨٩٠" = .ok ⟨"١٢٣٤٥٦٧٨٩٠"⟩
    ∧ Phone.init "12-34" = .error (.valueError "") :=
  ⟨(phone_accept_iff "0123456789").1.mpr (by decide),
   (phone_accept_iff "١٢٣٤٥٦٧٨٩٠").1.mpr (by decide),
   (phone_accept_iff "12-34").2 (by decide)⟩

/-- C4 (counterexample): `Birthday("1.3.1992")` — not of the literal shape
`DD.MM.YYYY` — is nevertheless accepted by `strptime`'s lenient one-or-two
digit day and month fields, storing March 1, 1992. -/
theorem birthday_single_digit_cx :
    Birthday.init "1.3.1992" = .ok ⟨⟨1992, 3, 1, 0, 0, 0⟩⟩
    ∧ strictDDMMYYYY "1.3.1992" = false := ⟨rfl, rfl⟩

/-- C4 (amended): Birthday construction succeeds exactly on the strings
accepted by the lenient characterization — a one-or-two character day
(space-padding and, after a tens digit 1 or 2, non-ASCII Unicode digits
allowed), a one-or-two ASCII-digit month, and a four-Unicode-digit year —
denoting a real calendar date, storing the parsed date as a midnight
datetime; any other string fails with
`ValueError "Invalid date format. Use DD.MM.YYYY"`. -/
theorem birthday_accept_iff (s : String) :
    (∀ b, Birthday.init s = .ok b →
      ∃ y m d, specDateAccepts s = some (y, m, d) ∧ b.value = ⟨y, m, d, 0, 0, 0⟩)
    ∧ (specDateAccepts s = none →
      Birthday.init s = .error (.valueError "Invalid date format. Use DD.MM.YYYY")) := by
  have hs := strptime_eq_spec s
  constructor
  · intro b hb
    unfold Birthday.init at hb
    rw [hs] at hb
    rcases hacc : specDateAccepts s with _ | ⟨⟨y, m, d⟩⟩
    · rw [hacc] at hb; cases hb
    · rw [hacc] at hb
      refine ⟨y, m, d, rfl, ?_⟩
      injection hb with hb
      rw [← hb]
  · intro h
    unfold Birthday.init
    rw [hs, h]

/-- C4 (witness): the amended claim evaluated at a well-formed date, at a date
whose day has a Unicode units digit (13th, via the `[1-2]\d` alternative), and
at the impossible date 31.02.2024. -/
theorem birthday_accept_iff_inst :
    (∃ y m d, specDateAccepts "12.01.1990" = some (y, m, d) ∧
      (⟨⟨1990, 1, 12, 0, 0, 0⟩⟩ : Birthday).value = ⟨y, m, d, 0, 0, 0⟩)
    ∧ (∃ y m d, specDateAccepts "1٣.01.1992" = some (y, m, d) ∧
      (⟨⟨1992, 1, 13, 0, 0, 0⟩⟩ : Birthday).value = ⟨y, m, d, 0, 0, 0⟩)
    ∧ Birthday.init "31.02.2024" =
        .error (.valueError "Invalid date format. Use DD.MM.YYYY") :=
  ⟨(birthday_accept_iff "12.01.1990").1 ⟨⟨1990, 1, 12, 0, 0, 0⟩⟩ rfl,
   (birthday_accept_iff "1٣.01.1992").1 ⟨⟨1992, 1, 13, 0, 0, 0⟩⟩ rfl,
   (birthday_accept_iff "31.02.2024").2 rfl⟩

/-- C9: the `replace(year=...)` error branch of `get_upcoming_birthdays` is
reachable: a stored Feb 29 birthday (reachable through `Birthday.__init__`)
makes the call raise `ValueError` both when the current year is not a leap
year and when the candidate has passed and the next year is not a leap year. -/
theorem feb29_branch_reachable :
    Birthday.init "29.02.2020" = .ok ⟨⟨2020, 2, 29, 0, 0, 0⟩⟩
    ∧ AddressBook.get_upcoming_birthdays zedBook ⟨2023, 2, 20⟩ =
        .error (.valueError "day is out of range for month")
    ∧ AddressBook.get_upcoming_birthdays zedBook ⟨2024, 3, 5⟩ =
        .error (.valueError "day is out of range for month") := ⟨rfl, rfl, rfl⟩

end AB

namespace AB

/-- Values present after an in-place phone edit come from the original list or
are the new value. -/
theorem editFirst_mem_sub (old new : String) :
    ∀ l l2, editFirst old new l = some l2 →
      ∀ x, x ∈ l2.map Phone.value → x ∈ l.map Phone.value ∨ x = new := by
  intro l
  induction l with
  | nil => intro l2 h; cases h
  | cons ph t ih =>
    intro l2 h x hx
    by_cases hv : ph.value = old
    · simp only [editFirst, hv, beq_self_eq_true, if_true, Option.some.injEq] at h
      rw [← h] at hx
      rcases List.mem_cons.mp hx with h1 | h1
      · exact Or.inr h1
      · exact Or.inl (List.mem_cons_of_mem _ h1)
    · simp only [editFirst, beq_iff_eq, hv, if_false, Option.map_eq_some'] at h
      rcases h with ⟨l2', hl2', rfl⟩
      rcases List.mem_cons.mp hx with h1 | h1
      · exact Or.inl (by rw [h1]; exact List.mem_cons_self _ _)
      · rcases ih l2' hl2' x h1 with h2 | h2
        · exact Or.inl (List.mem_cons_of_mem _ h2)
        · exact Or.inr h2

/-- An in-place phone edit preserves value-uniqueness provided the new value
does not already occur under another entry. -/
theorem editFirst_nodup (old new : String) :
    ∀ l l2, (l.map Phone.value).Nodup → (new ∈ l.map Phone.value → new = old) →
      editFirst old new l = some l2 → (l2.map Phone.value).Nodup := by
  intro l
  induction l with
  | nil => intro l2 _ _ h; cases h
  | cons ph t ih =>
    intro l2 hnd hmem h
    rw [List.map_cons, List.nodup_cons] at hnd
    obtain ⟨hph, hndt⟩ := hnd
    by_cases hv : ph.value = old
    · simp only [editFirst, hv, beq_self_eq_true, if_true, Option.some.injEq] at h
      rw [← h, List.map_cons, List.nodup_cons]
      refine ⟨?_, hndt⟩
      intro hin
      have hno : new = old := hmem (List.mem_cons_of_mem _ hin)
      rw [hno, ← hv] at hin
      exact hph hin
    · simp only [editFirst, beq_iff_eq, hv, if_false, Option.map_eq_some'] at h
      rcases h with ⟨l2', hl2', rfl⟩
      rw [List.map_cons, List.nodup_cons]
      constructor
      · intro hin
        rcases editFirst_mem_sub old new t l2' hl2' _ hin with h1 | h1
        · exact hph h1
        · have hnew : new ∈ (ph :: t).map Phone.value := by
            rw [List.map_cons, ← h1]
            exact List.mem_cons_self _ _
          exact hv (h1.trans (hmem hnew))
      · exact ih l2' hndt (fun hn => hmem (List.mem_cons_of_mem _ hn)) hl2'

/-- Removing a phone yields a sublist of the original phone list. -/
theorem removeFirst_sublist (p : String) :
    ∀ l l2, removeFirst p l = some l2 → l2.Sublist l := by
  intro l
  induction l with
  | nil => intro l2 h; cases h
  | cons ph t ih =>
    intro l2 h
    by_cases hv : ph.value = p
    · simp only [removeFirst, hv, beq_self_eq_true, if_true, Option.some.injEq] at h
      rw [← h]
      exact List.sublist_cons_self ph t
    · simp only [removeFirst, beq_iff_eq, hv, if_false, Option.map_eq_some'] at h
      rcases h with ⟨l2', hl2', rfl⟩
      exact List.Sublist.cons₂ ph (ih l2' hl2')

/-- C5 (counterexample): from a record satisfying the no-duplicate invariant,
`edit_phone("1111111111", "2222222222")` succeeds and produces a phone list
holding the value 2222222222 twice — `edit_phone` does not preserve the
invariant. -/
theorem edit_phone_duplicate_cx :
    twoPhoneRec.edit_phone "1111111111" "2222222222" =
      .ok ⟨⟨"Dup"⟩, [⟨"2222222222"⟩, ⟨"2222222222"⟩], none⟩
    ∧ phonesNodup twoPhoneRec
    ∧ ¬ phonesNodup ⟨⟨"Dup"⟩, [⟨"2222222222"⟩, ⟨"2222222222"⟩], none⟩ := by
  refine ⟨rfl, ?_, ?_⟩ <;> decide

/-- C5 (amended): `add_phone` and `remove_phone` preserve the
no-duplicate-phone-values invariant, and `edit_phone` preserves it provided
the new value does not already occur under an entry other than the edited one
(without that proviso it can create duplicates). -/
theorem record_ops_nodup (r : Record) (p old new : String) :
    (phonesNodup r → ∀ r2, r.add_phone p = .ok r2 → phonesNodup r2)
    ∧ (phonesNodup r → ∀ r2, r.remove_phone p = .ok r2 → phonesNodup r2)
    ∧ (phonesNodup r → (new ∈ r.phones.map Phone.value → new = old) →
        ∀ r2, r.edit_phone old new = .ok r2 → phonesNodup r2) := by
  refine ⟨?_, ?_, ?_⟩
  · intro hnd r2 h
    unfold Record.add_phone at h
    by_cases hany : (r.phones.any fun ph => ph.value == p) = true
    · rw [if_pos hany] at h
      injection h with h
      rw [← h]; exact hnd
    · rw [if_neg hany] at h
      cases hini : Phone.init p with
      | error e => rw [hini] at h; cases h
      | ok ph =>
        rw [hini] at h
        injection h with h
        rw [← h]
        have hphp : ph = ⟨p⟩ := Phone.init_ok hini
        unfold phonesNodup
        rw [List.map_append, List.nodup_append]
        refine ⟨hnd, by simp, ?_⟩
        intro x hx hx2
        simp only [hphp, List.map_cons, List.map_nil, List.mem_singleton] at hx2
        exact (fun hm => hany ((any_value_iff _ _).mpr hm)) (hx2 ▸ hx)
  · intro hnd r2 h
    unfold Record.remove_phone at h
    cases hrm : removeFirst p r.phones with
    | none => rw [hrm] at h; cases h
    | some l =>
      rw [hrm] at h
      injection h with h
      rw [← h]
      exact ((removeFirst_sublist p _ l hrm).map Phone.value).nodup hnd
  · intro hnd hcond r2 h
    unfold Record.edit_phone at h
    cases he : editFirst old new r.phones with
    | none => rw [he] at h; cases h
    | some l =>
      rw [he] at h
      injection h with h
      rw [← h]
      exact editFirst_nodup old new r.phones l hnd hcond he

/-- C5 (witness): the amended claim evaluated on concrete records — adding a
fresh phone and editing to a fresh value both keep the invariant. -/
theorem record_ops_nodup_inst :
    phonesNodup (⟨⟨"W"⟩, [⟨"0123456789"⟩, ⟨"1111111111"⟩], none⟩ : Record)
    ∧ phonesNodup (⟨⟨"Dup"⟩, [⟨"3333333333"⟩, ⟨"2222222222"⟩], none⟩ : Record) :=
  ⟨(record_ops_nodup wRec "1111111111" "x" "y").1 (by decide) _ rfl,
   (record_ops_nodup twoPhoneRec "p" "1111111111" "3333333333").2.2
     (by decide) (by decide) _ rfl⟩

end AB

namespace AB

/-- When `old` occurs exactly once, the edit succeeds, puts `new` among the
values, and removes `old` from them. -/
theorem editFirst_unique (old new : String) (hne : new ≠ old) :
    ∀ l : List Phone, (l.map Phone.value).count old = 1 →
      ∃ l2, editFirst old new l = some l2 ∧ new ∈ l2.map Phone.value ∧
        old ∉ l2.map Phone.value := by
  intro l
  induction l with
  | nil => intro h; simp at h
  | cons ph t ih =>
    intro hc
    by_cases hv : ph.value = old
    · have hct : (t.map Phone.value).count old = 0 := by
        rw [List.map_cons, hv, List.count_cons_self] at hc
        omega
      refine ⟨⟨new⟩ :: t, by simp [editFirst, hv], by simp, ?_⟩
      rw [List.map_cons, List.mem_cons]
      rintro (h1 | h1)
      · exact hne h1.symm
      · exact (List.count_eq_zero.mp hct) h1
    · have hct : (t.map Phone.value).count old = 1 := by
        rw [List.map_cons, List.count_cons_of_ne (fun h => hv h.symm)] at hc
        exact hc
      obtain ⟨l2', h1, h2, h3⟩ := ih hct
      refine ⟨ph :: l2', by simp [editFirst, hv, h1], by simp [h2], ?_⟩
      rw [List.map_cons, List.mem_cons]
      rintro (h4 | h4)
      · exact hv h4.symm
      · exact h3 h4

/-- Editing an absent phone value fails. -/
theorem editFirst_absent (old new : String) :
    ∀ l : List Phone, old ∉ l.map Phone.value → editFirst old new l = none := by
  intro l
  induction l with
  | nil => intro _; rfl
  | cons ph t ih =>
    intro h
    rw [List.map_cons, List.mem_cons] at h
    push_neg at h
    have hv : ¬ ph.value = old := fun hx => h.1 hx.symm
    simp [editFirst, hv, ih h.2]

/-- C6: when `oldPhone` occurs exactly once and `newPhone` is a fresh distinct
value, `edit_phone` succeeds — with no format validation of `newPhone` — after
which `find_phone newPhone` returns `newPhone` and `find_phone oldPhone` fails;
and on a record not containing `oldPhone`, `edit_phone` fails. -/
theorem edit_then_find (r : Record) (old new : String) :
    ((r.phones.map Phone.value).count old = 1 → new ≠ old →
      new ∉ r.phones.map Phone.value →
      ∃ r2, r.edit_phone old new = .ok r2 ∧ r2.find_phone new = .ok new ∧
        r2.find_phone old = .error (.valueError ""))
    ∧ (old ∉ r.phones.map Phone.value →
        r.edit_phone old new = .error (.valueError "")) := by
  constructor
  · intro hc hne _
    obtain ⟨l2, h1, h2, h3⟩ := editFirst_unique old new hne r.phones hc
    refine ⟨{ r with phones := l2 }, ?_, ?_, ?_⟩
    · unfold Record.edit_phone
      rw [h1]
    · unfold Record.find_phone
      rw [if_pos ((any_value_iff _ _).mpr h2)]
    · unfold Record.find_phone
      rw [if_neg (fun hx => h3 ((any_value_iff _ _).mp hx))]
  · intro hold
    unfold Record.edit_phone
    rw [editFirst_absent old new r.phones hold]

/-- C6 (witness): editing the single phone of a record to the non-10-digit
value "abc" succeeds and redirects `find_phone` accordingly. -/
theorem edit_then_find_inst :
    ∃ r2, wRec.edit_phone "0123456789" "abc" = .ok r2 ∧
      r2.find_phone "abc" = .ok "abc" ∧
      r2.find_phone "0123456789" = .error (.valueError "") :=
  (edit_then_find wRec "0123456789" "abc").1 (by decide) (by decide) (by decide)

/-- C7: `add_phone` of a value already present (even an invalid one) returns
the record unchanged; a fresh ten-digit value is appended at the end; a fresh
value rejected by `Phone.__init__` propagates that failure. -/
theorem add_phone_idempotent (r : Record) (p : String) :
    (p ∈ r.phones.map Phone.value → r.add_phone p = .ok r)
    ∧ (p ∉ r.phones.map Phone.value → isTenDigits p = true →
        r.add_phone p = .ok { r with phones := r.phones ++ [⟨p⟩] })
    ∧ (∀ e, p ∉ r.phones.map Phone.value → Phone.init p = .error e →
        r.add_phone p = .error e) := by
  refine ⟨?_, ?_, ?_⟩
  · intro hm
    unfold Record.add_phone
    rw [if_pos ((any_value_iff _ _).mpr hm)]
  · intro hm ht
    unfold Record.add_phone
    rw [if_neg (fun hx => hm ((any_value_iff _ _).mp hx))]
    unfold Phone.init
    rw [if_pos (tenDigits_reMatch p ht)]
  · intro e hm he
    unfold Record.add_phone
    rw [if_neg (fun hx => hm ((any_value_iff _ _).mp hx)), he]

/-- C7 (witness): re-adding a present phone is the identity, a fresh valid
phone is appended in order, and a fresh invalid phone raises `ValueError`. -/
theorem add_phone_idempotent_inst :
    wRec.add_phone "0123456789" = .ok wRec
    ∧ wRec.add_phone "1111111111" =
        .ok ⟨⟨"W"⟩, [⟨"0123456789"⟩, ⟨"1111111111"⟩], none⟩
    ∧ wRec.add_phone "12-34" = .error (.valueError "") :=
  ⟨(add_phone_idempotent wRec "0123456789").1 (by decide),
   (add_phone_idempotent wRec "1111111111").2.1 (by decide) (by decide),
   (add_phone_idempotent wRec "12-34").2.2 (.valueError "") (by decide) rfl⟩

end AB

namespace AB

/-- C8 (counterexample): `show-birthday` for an absent contact raises
`AttributeError`, a kind `input_error` does not catch, so the failure escapes
the dispatch boundary (and, in `main`, terminates the process) instead of
being converted to a fixed message. -/
theorem show_birthday_uncaught_cx :
    input_error (show_birthday ["Bob"] (⟨[]⟩ : AddressBook)) =
      .error (.attributeError "NoneType object has no attribute birthday") := rfl

/-- C8 (amended): `input_error` converts `ValueError`, `KeyError` and
`IndexError` to their fixed messages and passes successes through, but
`show-birthday` on an absent contact, or on a contact with no birthday set,
raises an `AttributeError` that `input_error` does not catch. -/
theorem input_error_mapping :
    (∀ msg, input_error (.error (.valueError msg)) =
      .ok "Please enter the correct arguments")
    ∧ input_error (.error .keyError) = .ok "The contact exists"
    ∧ input_error (.error .indexError) = .ok "No such contacts"
    ∧ (∀ s, input_error (.ok s) = .ok s)
    ∧ (∀ (book : AddressBook) (nm : String), book.find nm = none →
        input_error (show_birthday [nm] book) =
          .error (.attributeError "NoneType object has no attribute birthday"))
    ∧ (∀ (book : AddressBook) (nm : String) (r : Record),
        book.find nm = some r → r.birthday = none →
        input_error (show_birthday [nm] book) =
          .error (.attributeError "NoneType object has no attribute value")) := by
  refine ⟨fun msg => rfl, rfl, rfl, fun s => rfl, ?_, ?_⟩
  · intro book nm h
    simp [show_birthday, h, input_error]
  · intro book nm r h hb
    simp [show_birthday, h, hb, input_error]

/-- C8 (witness): the mapping theorem evaluated at an empty book and at a book
whose single contact has no birthday. -/
theorem input_error_mapping_inst :
    input_error (show_birthday ["Ann"] (⟨[]⟩ : AddressBook)) =
      .error (.attributeError "NoneType object has no attribute birthday")
    ∧ input_error (show_birthday ["Dup"] dupBook) =
      .error (.attributeError "NoneType object has no attribute value") :=
  ⟨input_error_mapping.2.2.2.2.1 ⟨[]⟩ "Ann" rfl,
   input_error_mapping.2.2.2.2.2 dupBook "Dup" twoPhoneRec rfl rfl⟩

end AB

namespace AB

/-- The loop's candidate computation agrees with the claim-side candidate. -/
theorem cand_ok_iff (today : PyDate) (dt : PyDateTime) (c : PyDate) :
    stepCandidate today dt = .ok c ↔ specCandidate today dt = some c := by
  obtain ⟨ty, tm, td⟩ := today
  obtain ⟨yy, mm, dd, hh, mi, ss⟩ := dt
  unfold stepCandidate specCandidate replaceYear pyDateTimeDate
  by_cases h1 : validYMD ty mm dd = true
  · simp only [h1, if_true]
    by_cases h2 : pyDateLt ⟨ty, mm, dd⟩ ⟨ty, tm, td⟩ = true
    · simp only [h2, if_true]
      by_cases h3 : validYMD (ty + 1) mm dd = true
      · simp [h3, Except.map]
      · simp [h3, Except.map]
    · simp [h2]
  · simp [h1]

/-- One loop iteration contributes an entry exactly for a qualifying record,
and the contributed string is the claim-side congratulation date. -/
theorem step_some_iff (today : PyDate) (r : Record) (s : String) :
    upcomingStep today r = .ok (some s) ↔
      ∃ b c, r.birthday = some b ∧ specCandidate today b.value = some c ∧
        dateDiffDays c today ≤ 7 ∧ s = strftimeDMY (specShift c) := by
  unfold upcomingStep
  cases hb : r.birthday with
  | none => simp
  | some b =>
    simp only []
    cases hc : stepCandidate today b.value with
    | error e =>
      simp only [hc]
      constructor
      · intro h; cases h
      · rintro ⟨b', c, hb', hsc, _, _⟩
        injection hb' with hb'
        subst hb'
        have h2 := (cand_ok_iff today b.value c).mpr hsc
        rw [hc] at h2
        cases h2
    | ok bd =>
      simp only [hc]
      have hwd : weekday bd < 7 := Nat.mod_lt _ (by norm_num)
      have hdet : ∀ c, specCandidate today b.value = some c → c = bd := by
        intro c hsc
        have h2 := (cand_ok_iff today b.value c).mpr hsc
        rw [hc] at h2
        injection h2 with h2
        exact h2.symm
      by_cases hdiff : (7 : Int) < dateDiffDays bd today
      · simp only [hdiff, if_true]
        constructor
        · intro h; injection h with h; cases h
        · rintro ⟨b', c, hb', hsc, hle, _⟩
          injection hb' with hb'
          subst hb'
          rw [hdet c hsc] at hle
          omega
      · simp only [hdiff, if_false]
        have hle : dateDiffDays bd today ≤ 7 := by omega
        by_cases h5 : weekday bd < 5
        · have e5 : ¬ weekday bd = 5 := by omega
          have e6 : ¬ weekday bd = 6 := by omega
          simp only [h5, if_true]
          constructor
          · intro h
            injection h with h
            injection h with h
            refine ⟨b, bd, rfl, (cand_ok_iff _ _ _).mp hc, hle, ?_⟩
            rw [← h]
            simp [specShift, e5, e6]
          · rintro ⟨b', c, hb', hsc, _, hs⟩
            injection hb' with hb'
            subst hb'
            rw [hdet c hsc] at hs
            rw [hs]
            simp [specShift, e5, e6]
        · by_cases h5e : weekday bd = 5
          · simp only [h5, if_false, h5e]
            simp only [beq_self_eq_true, if_true]
            constructor
            · intro h
              injection h with h
              injection h with h
              refine ⟨b, bd, rfl, (cand_ok_iff _ _ _).mp hc, hle, ?_⟩
              rw [← h]
              simp [specShift, h5e]
            · rintro ⟨b', c, hb', hsc, _, hs⟩
              injection hb' with hb'
              subst hb'
              rw [hdet c hsc] at hs
              rw [hs]
              simp [specShift, h5e]
          · by_cases h6e : weekday bd = 6
            · have e5 : (weekday bd == 5) = false := by
                simp [h5e]
              simp only [h5, if_false, e5, Bool.false_eq_true, h6e]
              simp only [beq_self_eq_true, if_true]
              constructor
              · intro h
                injection h with h
                injection h with h
                refine ⟨b, bd, rfl, (cand_ok_iff _ _ _).mp hc, hle, ?_⟩
                rw [← h]
                simp [specShift, h5e, h6e]
              · rintro ⟨b', c, hb', hsc, _, hs⟩
                injection hb' with hb'
                subst hb'
                rw [hdet c hsc] at hs
                rw [hs]
                simp [specShift, h5e, h6e]
            · exfalso
              omega

end AB

namespace AB

/-- Membership characterization of the `bdays` accumulation loop. -/
theorem getUBgo_mem (today : PyDate) :
    ∀ (l : List (String × Record)) (acc m : List (String × String)),
      getUBgo today l acc = .ok m →
      ∀ nv : String × String, nv ∈ m ↔
        nv ∈ acc ∨ ∃ r, (nv.1, r) ∈ l ∧ upcomingStep today r = .ok (some nv.2) := by
  intro l
  induction l with
  | nil =>
    intro acc m h nv
    injection h with h
    subst h
    simp
  | cons p rest ih =>
    obtain ⟨name, r0⟩ := p
    intro acc m h nv
    unfold getUBgo at h
    cases hst : upcomingStep today r0 with
    | error e =>
      rw [hst] at h
      cases h
    | ok o =>
      cases o with
      | none =>
        rw [hst] at h
        rw [ih acc m h nv]
        constructor
        · rintro (ha | ⟨r, hmem, hstep⟩)
          · exact Or.inl ha
          · exact Or.inr ⟨r, List.mem_cons_of_mem _ hmem, hstep⟩
        · rintro (ha | ⟨r, hmem, hstep⟩)
          · exact Or.inl ha
          · rcases List.mem_cons.mp hmem with he | hm
            · rw [Prod.mk.injEq] at he
              obtain ⟨h1, h2⟩ := he
              rw [h2, hst] at hstep
              injection hstep with hx
              cases hx
            · exact Or.inr ⟨r, hm, hstep⟩
      | some s =>
        rw [hst] at h
        rw [ih _ m h nv]
        rw [List.mem_append, List.mem_singleton]
        constructor
        · rintro ((ha | heq) | ⟨r, hmem, hstep⟩)
          · exact Or.inl ha
          · subst heq
            exact Or.inr ⟨r0, List.mem_cons_self _ _, hst⟩
          · exact Or.inr ⟨r, List.mem_cons_of_mem _ hmem, hstep⟩
        · rintro (ha | ⟨r, hmem, hstep⟩)
          · exact Or.inl (Or.inl ha)
          · rcases List.mem_cons.mp hmem with he | hm
            · rw [Prod.mk.injEq] at he
              obtain ⟨h1, h2⟩ := he
              rw [h2, hst] at hstep
              injection hstep with hx
              injection hx with hx
              exact Or.inl (Or.inr (Prod.ext_iff.mpr ⟨h1, hx.symm⟩))
            · exact Or.inr ⟨r, hm, hstep⟩

/-- The state-passing loop returns the threaded book unchanged and the same
result as the plain loop. -/
theorem getUBgoState_eq (today : PyDate) :
    ∀ (l : List (String × Record)) (bk : AddressBook) (acc : List (String × String)),
      getUBgoState today l bk acc = (getUBgo today l acc).map (fun r => (r, bk)) := by
  intro l
  induction l with
  | nil => intro bk acc; rfl
  | cons p rest ih =>
    obtain ⟨name, r0⟩ := p
    intro bk acc
    unfold getUBgoState getUBgo
    cases hst : upcomingStep today r0 with
    | error e => rfl
    | ok o =>
      cases o with
      | none => exact ih bk acc
      | some s => exact ih bk (acc ++ [(name, s)])

/-- Claim-side qualification is exactly "the loop body contributes an entry". -/
theorem qualifies_iff (today : PyDate) (r : Record) :
    qualifies today r = true ↔ ∃ s, upcomingStep today r = .ok (some s) := by
  constructor
  · intro hq
    unfold qualifies at hq
    cases hb : r.birthday with
    | none => simp only [hb] at hq; cases hq
    | some b =>
      simp only [hb] at hq
      cases hsc : specCandidate today b.value with
      | none => simp only [hsc] at hq; cases hq
      | some c =>
        simp only [hsc] at hq
        have hle : dateDiffDays c today ≤ 7 := of_decide_eq_true hq
        exact ⟨strftimeDMY (specShift c),
          (step_some_iff today r _).mpr ⟨b, c, hb, hsc, hle, rfl⟩⟩
  · rintro ⟨s, hs⟩
    rcases (step_some_iff today r s).mp hs with ⟨b, c, hb, hsc, hle, _⟩
    unfold qualifies
    simp only [hb, hsc]
    exact decide_eq_true hle

end AB

namespace AB

/-- C1 (counterexample): for the book holding only Zed (birthday 29.02.2020)
and today = 2023-01-10, no record qualifies, yet `get_upcoming_birthdays` does
not yield the empty mapping — it raises `ValueError` — so the claim does not
hold for every book and date. -/
theorem upcoming_membership_cx :
    qualifies ⟨2023, 1, 10⟩ zedRec = false
    ∧ AddressBook.get_upcoming_birthdays zedBook ⟨2023, 1, 10⟩ =
        .error (.valueError "day is out of range for month") := ⟨rfl, rfl⟩

/-- C1 (amended): whenever `get_upcoming_birthdays` returns normally, the
returned mapping contains a name exactly when the book holds under that name a
record with a set birthday whose candidate date lies at most 7 days after
today; if no record qualifies the mapping is empty, and the empty book yields
the empty mapping. -/
theorem upcoming_membership (book : AddressBook) (today : PyDate)
    (m : List (String × String))
    (h : book.get_upcoming_birthdays today = .ok m) :
    (∀ name : String, (∃ v, (name, v) ∈ m) ↔
      ∃ r, (name, r) ∈ book.data ∧ qualifies today r = true)
    ∧ ((∀ p ∈ book.data, qualifies today p.2 = false) → m = [])
    ∧ AddressBook.get_upcoming_birthdays ⟨[]⟩ today = .ok [] := by
  have hmem := getUBgo_mem today book.data [] m h
  refine ⟨?_, ?_, rfl⟩
  · intro name
    constructor
    · rintro ⟨v, hv⟩
      rcases (hmem (name, v)).mp hv with hfalse | ⟨r, hmemr, hstep⟩
      · exact absurd hfalse (List.not_mem_nil _)
      · exact ⟨r, hmemr, (qualifies_iff today r).mpr ⟨v, hstep⟩⟩
    · rintro ⟨r, hmemr, hq⟩
      rcases (qualifies_iff today r).mp hq with ⟨s, hs⟩
      exact ⟨s, (hmem (name, s)).mpr (Or.inr ⟨r, hmemr, hs⟩)⟩
  · intro hall
    rcases hm : m with _ | ⟨nv, mt⟩
    · rfl
    · exfalso
      have hin : nv ∈ m := by rw [hm]; exact List.mem_cons_self _ _
      rcases (hmem nv).mp hin with hh | ⟨r, hmemr, hstep⟩
      · exact List.not_mem_nil _ hh
      · have hq := (qualifies_iff today r).mpr ⟨nv.2, hstep⟩
        rw [hall (nv.1, r) hmemr] at hq
        cases hq

/-- C1 (witness): Scenario A and C — for today = 2024-01-10 the Ann/Cara book
yields exactly `{"Ann": "12.01.2024"}`, and the membership characterization
holds at "Ann" (present, qualifying) and "Cara" (absent, not qualifying). -/
theorem upcoming_membership_inst :
    AddressBook.get_upcoming_birthdays annCaraBook d20240110 =
      .ok [("Ann", "12.01.2024")]
    ∧ ((∃ v, ("Ann", v) ∈ [(("Ann" : String), ("12.01.2024" : String))]) ↔
        ∃ r, ("Ann", r) ∈ annCaraBook.data ∧ qualifies d20240110 r = true)
    ∧ ((∃ v, ("Cara", v) ∈ [(("Ann" : String), ("12.01.2024" : String))]) ↔
        ∃ r, ("Cara", r) ∈ annCaraBook.data ∧ qualifies d20240110 r = true) :=
  ⟨rfl,
   (upcoming_membership annCaraBook d20240110 [("Ann", "12.01.2024")] rfl).1 "Ann",
   (upcoming_membership annCaraBook d20240110 [("Ann", "12.01.2024")] rfl).1 "Cara"⟩

/-- C2: every entry of a returned upcoming-birthdays mapping carries the
candidate date shifted by the weekend rule (Saturday +2, Sunday +1, otherwise
unchanged), formatted DD.MM.YYYY; conversely every qualifying record
contributes exactly that entry. -/
theorem congrat_date_value (book : AddressBook) (today : PyDate)
    (m : List (String × String)) (name s : String)
    (h : book.get_upcoming_birthdays today = .ok m) :
    ((name, s) ∈ m →
      ∃ r b c, (name, r) ∈ book.data ∧ r.birthday = some b ∧
        specCandidate today b.value = some c ∧ dateDiffDays c today ≤ 7 ∧
        s = strftimeDMY (specShift c))
    ∧ (∀ (r : Record) (b : Birthday) (c : PyDate), (name, r) ∈ book.data →
        r.birthday = some b → specCandidate today b.value = some c →
        dateDiffDays c today ≤ 7 →
        (name, strftimeDMY (specShift c)) ∈ m) := by
  have hmem := getUBgo_mem today book.data [] m h
  constructor
  · intro hin
    rcases (hmem (name, s)).mp hin with hh | ⟨r, hmemr, hstep⟩
    · exact absurd hh (List.not_mem_nil _)
    · rcases (step_some_iff today r s).mp hstep with ⟨b, c, hb, hsc, hle, hs⟩
      exact ⟨r, b, c, hmemr, hb, hsc, hle, hs⟩
  · intro r b c hmemr hb hsc hle
    exact (hmem (name, strftimeDMY (specShift c))).mpr
      (Or.inr ⟨r, hmemr, (step_some_iff today r _).mpr ⟨b, c, hb, hsc, hle, rfl⟩⟩)

/-- C2 (witness): Scenario B — Bob's birthday 13.01.1985 falls on Saturday
2024-01-13, and for today = 2024-01-10 the result maps Bob to "15.01.2024",
the candidate shifted to Monday. -/
theorem congrat_date_value_inst :
    AddressBook.get_upcoming_birthdays bobBook d20240110 =
      .ok [("Bob", "15.01.2024")]
    ∧ (∃ r b c, ("Bob", r) ∈ bobBook.data ∧ r.birthday = some b ∧
        specCandidate d20240110 b.value = some c ∧
        dateDiffDays c d20240110 ≤ 7 ∧
        "15.01.2024" = strftimeDMY (specShift c))
    ∧ specShift ⟨2024, 1, 13⟩ = ⟨2024, 1, 15⟩ :=
  ⟨rfl,
   (congrat_date_value bobBook d20240110 [("Bob", "15.01.2024")] "Bob"
      "15.01.2024" rfl).1 (List.mem_cons_self _ _),
   rfl⟩

/-- C10: `get_upcoming_birthdays` is a pure query — in the state-passing
rendering, a normal return leaves the book (all names, records, phones and
birthdays) unchanged, and the result agrees with the plain rendering. -/
theorem upcoming_pure (book : AddressBook) (today : PyDate)
    (res : List (String × String)) (book2 : AddressBook)
    (h : book.get_upcoming_birthdays_state today = .ok (res, book2)) :
    book2 = book ∧ book.get_upcoming_birthdays today = .ok res := by
  unfold AddressBook.get_upcoming_birthdays_state at h
  rw [getUBgoState_eq] at h
  unfold AddressBook.get_upcoming_birthdays
  cases hg : getUBgo today book.data [] with
  | error e => rw [hg] at h; cases h
  | ok res2 =>
    rw [hg] at h
    simp only [Except.map] at h
    injection h with h
    rw [Prod.mk.injEq] at h
    obtain ⟨h1, h2⟩ := h
    exact ⟨h2.symm, by rw [← h1]⟩

/-- C10 (witness): the purity theorem evaluated on the Ann/Cara book. -/
theorem upcoming_pure_inst :
    annCaraBook = annCaraBook
    ∧ AddressBook.get_upcoming_birthdays annCaraBook d20240110 =
        .ok [("Ann", "12.01.2024")] :=
  upcoming_pure annCaraBook d20240110 [("Ann", "12.01.2024")] annCaraBook rfl

end AB
